import Mathlib

/-!
Verification of the continuous-track plugin property loader
(gazebo_continuous_track_properties.hpp).

The development shallowly embeds the loader: the SDF descriptor tree is an
inductive rose tree, the physics model is a joint registry, scalar values read
as doubles are modelled as exact rationals, and every GZ_ASSERT abort is an
error value of an Except computation.  Definitions follow the C++ source; the
only part modelled from the natural-language specification is the schema
conformance predicate, because the schema file used by AssertPluginSDF
(sdf/continuous_track_plugin.sdf) and the sdformat merge mechanism are outside
the analysed sources.
-/

/-- Scalar payload of an SDF element value, as read by the typed getters
Get of std::string slash double slash std::size_t. -/
inductive SdfValue : Type where
  | noValue : SdfValue
  | str (s : String) : SdfValue
  | num (q : ℚ) : SdfValue
  | uint (n : Nat) : SdfValue
deriving DecidableEq, Repr

/-- An SDF descriptor-tree element: a tag name, a scalar value and the ordered
list of child elements (document order). -/
inductive SdfElement : Type where
  | mk (name : String) (value : SdfValue) (children : List SdfElement) : SdfElement
deriving Repr

/-- Tag name of an element. -/
def SdfElement.name : SdfElement → String
  | .mk n _ _ => n

/-- Scalar value of an element. -/
def SdfElement.value : SdfElement → SdfValue
  | .mk _ v _ => v

/-- Children of an element, in document order. -/
def SdfElement.children : SdfElement → List SdfElement
  | .mk _ _ cs => cs

/-- A fresh value-less element carrying only a tag, as created by
sdf::Element::GetElement when the requested child is absent. -/
def SdfElement.emptyElement (tag : String) : SdfElement :=
  .mk tag .noValue []

/-- All children with the given tag, in document order.  This is the list
visited by the C++ idiom GetElement(tag) followed by the GetNextElement(tag)
chain. -/
def SdfElement.getElements (e : SdfElement) (tag : String) : List SdfElement :=
  e.children.filter (fun c => c.name = tag)

/-- HasElement of sdf::Element: whether some child has the given tag. -/
def SdfElement.hasElement (e : SdfElement) (tag : String) : Bool :=
  !(e.getElements tag).isEmpty

/-- GetElement of sdf::Element, value part: the first child with the given
tag, or a fresh empty element when absent (sdf inserts such an element; the
state-passing variant SdfElement.getElementS below also records the
insertion). -/
def SdfElement.getElement (e : SdfElement) (tag : String) : SdfElement :=
  ((e.getElements tag).head?).getD (SdfElement.emptyElement tag)

/-- Appends a child, keeping name and value: the tree-mutation part of
GetElement on a missing tag. -/
def SdfElement.addChild (e : SdfElement) (c : SdfElement) : SdfElement :=
  .mk e.name e.value (e.children ++ [c])

/-- GetElement of sdf::Element with its state effect: returns the child found
for the tag together with the (possibly extended) tree. -/
def SdfElement.getElementS (e : SdfElement) (tag : String) : SdfElement × SdfElement :=
  match (e.getElements tag).head? with
  | some c => (c, e)
  | none => (SdfElement.emptyElement tag, e.addChild (SdfElement.emptyElement tag))

/-- Get of std::string: the string payload, defaulting to the empty string. -/
def SdfElement.getString (e : SdfElement) : String :=
  match e.value with
  | .str s => s
  | _ => ""

/-- Get of double: the numeric payload (doubles are modelled as exact
rationals), defaulting to 0. -/
def SdfElement.getDouble (e : SdfElement) : ℚ :=
  match e.value with
  | .num q => q
  | _ => 0

/-- Get of std::size_t: the unsigned payload, defaulting to 0. -/
def SdfElement.getUInt (e : SdfElement) : Nat :=
  match e.value with
  | .uint n => n
  | _ => 0

/-- Clone of sdf::Element: a recursive deep copy of the whole subtree. -/
def SdfElement.clone : SdfElement → SdfElement
  | .mk n v cs => .mk n v (cs.attach.map (fun c => clone c.1))
decreasing_by
  have := List.sizeOf_lt_of_mem c.2
  simp only [SdfElement.mk.sizeOf_spec]
  omega

/-- Structural induction for the nested tree type: to prove a property of all
elements it suffices to prove it for a node given it for every child. -/
theorem SdfElement.indOn {P : SdfElement → Prop}
    (h : ∀ n v cs, (∀ c, c ∈ cs → P c) → P (SdfElement.mk n v cs)) :
    ∀ e, P e := by
  have key : ∀ N, ∀ e : SdfElement, sizeOf e ≤ N → P e := by
    intro N
    induction N with
    | zero =>
      intro e he
      cases e with
      | mk n v cs => simp [SdfElement.mk.sizeOf_spec] at he
    | succ N ih =>
      intro e he
      cases e with
      | mk n v cs =>
        apply h
        intro c hc
        apply ih
        have h1 : sizeOf c < sizeOf cs := List.sizeOf_lt_of_mem hc
        simp only [SdfElement.mk.sizeOf_spec] at he
        omega
  exact fun e => key (sizeOf e) e le_rfl

/-- A deep copy denotes the same tree value: Clone preserves the whole
structure of its source. -/
theorem SdfElement.clone_eq : ∀ e : SdfElement, e.clone = e := by
  apply SdfElement.indOn
  intro n v cs ih
  rw [SdfElement.clone]
  congr 1
  rw [List.attach_map_val cs SdfElement.clone]
  calc cs.map SdfElement.clone = cs.map id := List.map_congr_left ih
    _ = cs := List.map_id cs

/-! Physics model: the external joint registry.  Joint kinematic kinds follow
the EntityType bit flags of gazebo physics Base; only distinctness of the bits
matters here. -/

/-- Bit flag of gazebo physics Base EntityType for rotational joints. -/
def HINGE_JOINT : Nat := 0x400

/-- Bit flag of gazebo physics Base EntityType for translational joints. -/
def SLIDER_JOINT : Nat := 0x800

/-- Bit flag of gazebo physics Base EntityType for ball joints (used in
examples as a joint kind that is neither rotational nor translational). -/
def BALL_JOINT : Nat := 0x100

/-- A joint of the external model: its registry name and its EntityType bit
mask.  The module holds joints as non-owning handles. -/
structure Joint where
  name : String
  jointType : Nat
deriving DecidableEq, Repr

/-- GetType of gazebo physics Joint: the EntityType bit mask. -/
def Joint.GetType (j : Joint) : Nat :=
  j.jointType

/-- The external model interface needed by the loader: an ordered joint
registry. -/
structure Model where
  joints : List Joint
deriving DecidableEq, Repr

/-- GetJoint of gazebo physics Model: name lookup in the registry, null (none)
when the name resolves to no joint. -/
def Model.GetJoint (m : Model) (jname : String) : Option Joint :=
  m.joints.find? (fun j => j.name = jname)

/-- One error value per failure site of the loader: the schema mismatch abort
of AssertPluginSDF and the six GZ_ASSERT aborts of the three extractors, in
source order. -/
inductive LoadError : Type where
  | SchemaViolation : LoadError
  | SprocketJointMissing : LoadError
  | SprocketJointWrongKind : LoadError
  | SegmentJointMissing : LoadError
  | SegmentJointWrongKind : LoadError
  | SegmentEndPositionNonPositive : LoadError
  | ElementsPerRoundNonPositive : LoadError
deriving DecidableEq, Repr

/-- Sprocket of ContinuousTrackProperties: joint handle and pitch diameter. -/
structure Sprocket where
  joint : Joint
  pitch_diameter : ℚ
deriving DecidableEq, Repr

/-- Segment of ContinuousTrackProperties Trajectory: joint handle and end
position. -/
structure Trajectory.Segment where
  joint : Joint
  end_position : ℚ
deriving DecidableEq, Repr

/-- Trajectory of ContinuousTrackProperties: the ordered segment list. -/
structure Trajectory where
  segments : List Trajectory.Segment
deriving DecidableEq, Repr

/-- Element of ContinuousTrackProperties Pattern: the cloned collision and
visual subtrees, in encounter order. -/
structure Pattern.Element where
  collision_sdfs : List SdfElement
  visual_sdfs : List SdfElement
deriving Repr

/-- Pattern of ContinuousTrackProperties: elements per round and the ordered
element list. -/
structure Pattern where
  elements_per_round : Nat
  elements : List Pattern.Element
deriving Repr

/-- LoadSprocket: reads the joint name, resolves it in the model (GZ_ASSERT
missing-joint on null), checks the rotational bit (GZ_ASSERT wrong-kind
otherwise), then reads the pitch diameter with no further check. -/
def LoadSprocket (_model : Model) (_sdf : SdfElement) : Except LoadError Sprocket :=
  match _model.GetJoint ((_sdf.getElement "joint").getString) with
  | none => .error .SprocketJointMissing
  | some joint =>
    if joint.GetType &&& HINGE_JOINT ≠ 0 then
      .ok { joint := joint, pitch_diameter := (_sdf.getElement "pitch_diameter").getDouble }
    else .error .SprocketJointWrongKind

/-- Body of the LoadTrajectory segment loop: resolve the segment joint
(GZ_ASSERT missing-joint on null), check the rotational-or-translational bits
(GZ_ASSERT wrong-kind), read the end position and GZ_ASSERT its positivity. -/
def LoadSegment (_model : Model) (seg : SdfElement) : Except LoadError Trajectory.Segment :=
  match _model.GetJoint ((seg.getElement "joint").getString) with
  | none => .error .SegmentJointMissing
  | some joint =>
    if joint.GetType &&& HINGE_JOINT ≠ 0 ∨ joint.GetType &&& SLIDER_JOINT ≠ 0 then
      let ep := (seg.getElement "end_position").getDouble
      if 0 < ep then .ok { joint := joint, end_position := ep }
      else .error .SegmentEndPositionNonPositive
    else .error .SegmentJointWrongKind

/-- The segment loop of LoadTrajectory: processes the segment elements in
document order, aborting at the first failing segment and otherwise push-back
accumulating the results in order. -/
def LoadSegments (_model : Model) : List SdfElement → Except LoadError (List Trajectory.Segment)
  | [] => .ok []
  | seg :: rest =>
    match LoadSegment _model seg with
    | .error e => .error e
    | .ok s =>
      match LoadSegments _model rest with
      | .error e => .error e
      | .ok ss => .ok (s :: ss)

/-- LoadTrajectory: iterates the segment children via GetElement slash
GetNextElement.  The initial GetElement inserts an empty segment when none is
present (unreachable after schema validation), so the visited list is the
segment children, or one empty segment if there are none. -/
def LoadTrajectory (_model : Model) (_sdf : SdfElement) : Except LoadError Trajectory :=
  let segs :=
    if _sdf.hasElement "segment" then _sdf.getElements "segment"
    else [SdfElement.emptyElement "segment"]
  match LoadSegments _model segs with
  | .error e => .error e
  | .ok ss => .ok { segments := ss }

/-- Body of the LoadPattern element loop: when collision children exist, clone
each of them in encounter order; likewise for visual children.  The HasElement
guards mirror the source. -/
def LoadPatternElement (element_elem : SdfElement) : Pattern.Element :=
  { collision_sdfs :=
      if element_elem.hasElement "collision" then
        (element_elem.getElements "collision").map SdfElement.clone
      else [],
    visual_sdfs :=
      if element_elem.hasElement "visual" then
        (element_elem.getElements "visual").map SdfElement.clone
      else [] }

/-- LoadPattern: reads elements-per-round as an unsigned integer, GZ_ASSERT
its positivity, then maps the element loop over the element children in
document order (the model argument is never read).  As in LoadTrajectory, the
initial GetElement inserts an empty element when none is present. -/
def LoadPattern (_model : Model) (_sdf : SdfElement) : Except LoadError Pattern :=
  let epr := (_sdf.getElement "elements_per_round").getUInt
  if 0 < epr then
    let elems :=
      if _sdf.hasElement "element" then _sdf.getElements "element"
      else [SdfElement.emptyElement "element"]
    .ok { elements_per_round := epr, elements := elems.map LoadPatternElement }
  else .error .ElementsPerRoundNonPositive

/-- Modelled from the spec: scalar type conformance for a string field. -/
def isStrValue (e : SdfElement) : Bool :=
  match e.value with
  | .str _ => true
  | _ => false

/-- Modelled from the spec: scalar type conformance for a floating-point
field. -/
def isNumValue (e : SdfElement) : Bool :=
  match e.value with
  | .num _ => true
  | _ => false

/-- Modelled from the spec: scalar type conformance for an unsigned integer
field. -/
def isUIntValue (e : SdfElement) : Bool :=
  match e.value with
  | .uint _ => true
  | _ => false

/-- Modelled from the spec: arity conformance for a required single child. -/
def hasExactlyOne (e : SdfElement) (tag : String) : Bool :=
  (e.getElements tag).length = 1

/-- Modelled from the spec: conformance of the sprocket subtree, namely
joint of string type and pitch_diameter of float type, each required single. -/
def conformsSprocket (s : SdfElement) : Bool :=
  hasExactlyOne s "joint" && isStrValue (s.getElement "joint") &&
  hasExactlyOne s "pitch_diameter" && isNumValue (s.getElement "pitch_diameter")

/-- Modelled from the spec: conformance of one trajectory segment subtree,
namely joint of string type and end_position of float type, each required
single. -/
def conformsSegment (seg : SdfElement) : Bool :=
  hasExactlyOne seg "joint" && isStrValue (seg.getElement "joint") &&
  hasExactlyOne seg "end_position" && isNumValue (seg.getElement "end_position")

/-- Modelled from the spec: conformance of the trajectory subtree, namely one
or more segment children, each conforming. -/
def conformsTrajectory (t : SdfElement) : Bool :=
  !(t.getElements "segment").isEmpty && (t.getElements "segment").all conformsSegment

/-- Modelled from the spec: conformance of the pattern subtree, namely
elements_per_round of unsigned type required single, and one or more element
children, whose collision and visual children are optional opaque subtrees. -/
def conformsPattern (p : SdfElement) : Bool :=
  hasExactlyOne p "elements_per_round" && isUIntValue (p.getElement "elements_per_round") &&
  !(p.getElements "element").isEmpty

/-- Modelled from the spec: conformance of a plugin configuration tree to the
schema file of the plugin (sdf/continuous_track_plugin.sdf, outside the
analysed sources): required single sprocket, trajectory and pattern children,
each conforming per the field list of the specification. -/
def conformsToSchema (sdf : SdfElement) : Bool :=
  hasExactlyOne sdf "sprocket" && conformsSprocket (sdf.getElement "sprocket") &&
  hasExactlyOne sdf "trajectory" && conformsTrajectory (sdf.getElement "trajectory") &&
  hasExactlyOne sdf "pattern" && conformsPattern (sdf.getElement "pattern")

/-- AssertPluginSDF: merges the plugin schema with the given tree by
serialize-and-reparse, aborting on any mismatch and returning nothing (void in
the source).  The accept slash reject behaviour of the merge is modelled by
the spec-derived conformsToSchema, since the schema file and the sdformat
readString mechanism are outside the analysed sources. -/
def AssertPluginSDF (_sdf : SdfElement) : Except LoadError Unit :=
  if conformsToSchema _sdf then .ok () else .error .SchemaViolation

/-- Properties of ContinuousTrackProperties: the aggregate of the three
extraction results. -/
structure Properties where
  sprocket : Sprocket
  trajectory : Trajectory
  pattern : Pattern
deriving Repr

/-- The ContinuousTrackProperties constructor: asserts the schema, then runs
LoadSprocket, LoadTrajectory and LoadPattern, in this order, each on the
corresponding child of the raw input tree, aborting at the first failure. -/
def ContinuousTrackProperties (_model : Model) (_sdf : SdfElement) :
    Except LoadError Properties :=
  match AssertPluginSDF _sdf with
  | .error e => .error e
  | .ok _ =>
    match LoadSprocket _model (_sdf.getElement "sprocket") with
    | .error e => .error e
    | .ok sprocket =>
      match LoadTrajectory _model (_sdf.getElement "trajectory") with
      | .error e => .error e
      | .ok trajectory =>
        match LoadPattern _model (_sdf.getElement "pattern") with
        | .error e => .error e
        | .ok pattern => .ok { sprocket := sprocket, trajectory := trajectory, pattern := pattern }

/-! State-passing variants of the extractors.  GetElement on a missing tag
inserts a fresh child into the tree, so each extractor is also given a
semantics that threads the input tree state explicitly; the frame claim is
that on schema-conforming input the final tree equals the initial one. -/

/-- Eta law for the tree constructor. -/
theorem SdfElement.eta (e : SdfElement) : SdfElement.mk e.name e.value e.children = e := by
  cases e; rfl

/-- LoadSprocket with the tree state threaded through both GetElement calls. -/
def LoadSprocketS (_model : Model) (_sdf : SdfElement) :
    Except LoadError (Sprocket × SdfElement) :=
  let r1 := _sdf.getElementS "joint"
  match _model.GetJoint r1.1.getString with
  | none => .error .SprocketJointMissing
  | some joint =>
    if joint.GetType &&& HINGE_JOINT ≠ 0 then
      let r2 := r1.2.getElementS "pitch_diameter"
      .ok ({ joint := joint, pitch_diameter := r2.1.getDouble }, r2.2)
    else .error .SprocketJointWrongKind

/-- Segment loop body with the segment subtree state threaded through both
GetElement calls. -/
def LoadSegmentS (_model : Model) (seg : SdfElement) :
    Except LoadError (Trajectory.Segment × SdfElement) :=
  let r1 := seg.getElementS "joint"
  match _model.GetJoint r1.1.getString with
  | none => .error .SegmentJointMissing
  | some joint =>
    if joint.GetType &&& HINGE_JOINT ≠ 0 ∨ joint.GetType &&& SLIDER_JOINT ≠ 0 then
      let r2 := r1.2.getElementS "end_position"
      if 0 < r2.1.getDouble then .ok ({ joint := joint, end_position := r2.1.getDouble }, r2.2)
      else .error .SegmentEndPositionNonPositive
    else .error .SegmentJointWrongKind

/-- Segment loop over the full children list, rebuilding the children with any
subtree updates made while processing segment-tagged children. -/
def LoadSegmentsS (_model : Model) :
    List SdfElement → Except LoadError (List Trajectory.Segment × List SdfElement)
  | [] => .ok ([], [])
  | c :: cs =>
    if c.name = "segment" then
      match LoadSegmentS _model c with
      | .error e => .error e
      | .ok r =>
        match LoadSegmentsS _model cs with
        | .error e => .error e
        | .ok rs => .ok (r.1 :: rs.1, r.2 :: rs.2)
    else
      match LoadSegmentsS _model cs with
      | .error e => .error e
      | .ok rs => .ok (rs.1, c :: rs.2)

/-- LoadTrajectory with the tree state threaded: the initial GetElement may
insert an empty segment, and each loop iteration may update its segment
subtree in place. -/
def LoadTrajectoryS (_model : Model) (_sdf : SdfElement) :
    Except LoadError (Trajectory × SdfElement) :=
  let sdf0 :=
    if _sdf.hasElement "segment" then _sdf
    else _sdf.addChild (SdfElement.emptyElement "segment")
  match LoadSegmentsS _model sdf0.children with
  | .error e => .error e
  | .ok rs => .ok ({ segments := rs.1 }, SdfElement.mk sdf0.name sdf0.value rs.2)

/-- LoadPattern with the tree state threaded: GetElement on elements-per-round
and the initial GetElement on element may insert children; the per-element
collision and visual loops are HasElement-guarded in the source and therefore
read-only. -/
def LoadPatternS (_model : Model) (_sdf : SdfElement) :
    Except LoadError (Pattern × SdfElement) :=
  let r1 := _sdf.getElementS "elements_per_round"
  let epr := r1.1.getUInt
  if 0 < epr then
    let sdf1 :=
      if r1.2.hasElement "element" then r1.2
      else r1.2.addChild (SdfElement.emptyElement "element")
    .ok ({ elements_per_round := epr,
           elements := (sdf1.getElements "element").map LoadPatternElement }, sdf1)
  else .error .ElementsPerRoundNonPositive

/-! Pointer-level model of subtree ownership.  A PElem is a descriptor-tree
node annotated with its address; Clone allocates fresh addresses for the whole
copied subtree, and mutation targets an address.  This makes the clone
isolation claim expressible: a clone is structurally equal to its source while
mutation through any address of one side leaves the other side unchanged. -/

/-- A descriptor-tree node annotated with the address (id) it is stored at. -/
inductive PElem : Type where
  | mk (id : Nat) (name : String) (value : SdfValue) (children : List PElem) : PElem

mutual
/-- Structural view of an addressed tree: drops every address. -/
def PElem.erase : PElem → SdfElement
  | .mk _ n v cs => .mk n v (PElem.eraseList cs)
termination_by e => sizeOf e
decreasing_by simp [PElem.mk.sizeOf_spec]

/-- Structural view of an addressed child list. -/
def PElem.eraseList : List PElem → List SdfElement
  | [] => []
  | c :: cs => PElem.erase c :: PElem.eraseList cs
termination_by l => sizeOf l
decreasing_by all_goals (simp <;> omega)
end

mutual
/-- All addresses of the nodes of a subtree. -/
def PElem.ids : PElem → List Nat
  | .mk i _ _ cs => i :: PElem.idsList cs
termination_by e => sizeOf e
decreasing_by simp [PElem.mk.sizeOf_spec]

/-- All addresses of the nodes of a child list. -/
def PElem.idsList : List PElem → List Nat
  | [] => []
  | c :: cs => PElem.ids c ++ PElem.idsList cs
termination_by l => sizeOf l
decreasing_by all_goals (simp <;> omega)
end

mutual
/-- Mutation through an address: overwrite the value of the node stored at the
target address, wherever it occurs in the subtree. -/
def PElem.setValueAt : PElem → Nat → SdfValue → PElem
  | .mk i n v cs, t, w => .mk i n (if i = t then w else v) (PElem.setValueAtList cs t w)
termination_by e _ _ => sizeOf e
decreasing_by simp [PElem.mk.sizeOf_spec]

/-- Mutation through an address, over a child list. -/
def PElem.setValueAtList : List PElem → Nat → SdfValue → List PElem
  | [], _, _ => []
  | c :: cs, t, w => PElem.setValueAt c t w :: PElem.setValueAtList cs t w
termination_by l _ _ => sizeOf l
decreasing_by all_goals (simp <;> omega)
end

mutual
/-- Clone of sdf::Element at the pointer level: copies the subtree node by
node, allocating fresh addresses from the given counter, and returns the copy
together with the next free counter. -/
def PElem.cloneAlloc : PElem → Nat → PElem × Nat
  | .mk _ n v cs, ctr =>
    let r := PElem.cloneAllocList cs (ctr + 1)
    (.mk ctr n v r.1, r.2)
termination_by e _ => sizeOf e
decreasing_by simp [PElem.mk.sizeOf_spec]

/-- Clone at the pointer level, over a child list, threading the counter. -/
def PElem.cloneAllocList : List PElem → Nat → List PElem × Nat
  | [], ctr => ([], ctr)
  | c :: cs, ctr =>
    let r1 := PElem.cloneAlloc c ctr
    let r2 := PElem.cloneAllocList cs r1.2
    (r1.1 :: r2.1, r2.2)
termination_by l _ => sizeOf l
decreasing_by all_goals (simp <;> omega)
end

/-- Combined facts about pointer-level cloning, proved by strong induction on
the size of the tree slash child list: the copy is structurally equal to the
source, the counter never decreases, and every address of the copy lies in the
allocation window of the call. -/
theorem PElem.cloneAlloc_facts : ∀ N : Nat,
    (∀ (e : PElem) (ctr : Nat), sizeOf e ≤ N →
       (PElem.erase (PElem.cloneAlloc e ctr).1 = PElem.erase e ∧
        ctr ≤ (PElem.cloneAlloc e ctr).2 ∧
        ∀ i ∈ PElem.ids (PElem.cloneAlloc e ctr).1,
          ctr ≤ i ∧ i < (PElem.cloneAlloc e ctr).2)) ∧
    (∀ (l : List PElem) (ctr : Nat), sizeOf l ≤ N →
       (PElem.eraseList (PElem.cloneAllocList l ctr).1 = PElem.eraseList l ∧
        ctr ≤ (PElem.cloneAllocList l ctr).2 ∧
        ∀ i ∈ PElem.idsList (PElem.cloneAllocList l ctr).1,
          ctr ≤ i ∧ i < (PElem.cloneAllocList l ctr).2)) := by
  intro N
  induction N with
  | zero =>
    constructor
    · intro e ctr he
      cases e with
      | mk i n v cs => simp [PElem.mk.sizeOf_spec] at he
    · intro l ctr hl
      cases l with
      | nil => simp at hl
      | cons c cs => simp at hl
  | succ N ih =>
    constructor
    · intro e ctr he
      cases e with
      | mk i n v cs =>
        have hcs : sizeOf cs ≤ N := by
          simp only [PElem.mk.sizeOf_spec] at he; omega
        obtain ⟨h1, h2, h3⟩ := ih.2 cs (ctr + 1) hcs
        refine ⟨?_, ?_, ?_⟩
        · simp only [PElem.cloneAlloc, PElem.erase]
          rw [h1]
        · simp only [PElem.cloneAlloc]
          omega
        · intro j hj
          simp only [PElem.cloneAlloc, PElem.ids, List.mem_cons] at hj ⊢
          rcases hj with rfl | hj
          · omega
          · have := h3 j hj
            omega
    · intro l ctr hl
      cases l with
      | nil =>
        simp [PElem.cloneAllocList, PElem.eraseList, PElem.idsList]
      | cons c cs =>
        have hc : sizeOf c ≤ N := by simp at hl; omega
        have hcs : sizeOf cs ≤ N := by simp at hl; omega
        obtain ⟨e1, e2, e3⟩ := ih.1 c ctr hc
        obtain ⟨f1, f2, f3⟩ := ih.2 cs (PElem.cloneAlloc c ctr).2 hcs
        refine ⟨?_, ?_, ?_⟩
        · simp only [PElem.cloneAllocList, PElem.eraseList]
          rw [e1, f1]
        · simp only [PElem.cloneAllocList]
          omega
        · intro j hj
          simp only [PElem.cloneAllocList, PElem.idsList, List.mem_append] at hj ⊢
          rcases hj with hj | hj
          · have := e3 j hj
            omega
          · have := f3 j hj
            omega

/-- Mutation through an address that does not occur in a subtree leaves the
subtree unchanged, proved by strong induction on the size. -/
theorem PElem.setValueAt_facts : ∀ N : Nat,
    (∀ (e : PElem) (t : Nat) (w : SdfValue), sizeOf e ≤ N → t ∉ PElem.ids e →
       PElem.setValueAt e t w = e) ∧
    (∀ (l : List PElem) (t : Nat) (w : SdfValue), sizeOf l ≤ N → t ∉ PElem.idsList l →
       PElem.setValueAtList l t w = l) := by
  intro N
  induction N with
  | zero =>
    constructor
    · intro e t w he
      cases e with
      | mk i n v cs => simp [PElem.mk.sizeOf_spec] at he
    · intro l t w hl
      cases l with
      | nil => intro _; simp [PElem.setValueAtList]
      | cons c cs => simp at hl
  | succ N ih =>
    constructor
    · intro e t w he ht
      cases e with
      | mk i n v cs =>
        have hcs : sizeOf cs ≤ N := by
          simp only [PElem.mk.sizeOf_spec] at he; omega
        simp only [PElem.ids, List.mem_cons, not_or] at ht
        simp only [PElem.setValueAt]
        rw [if_neg (by omega), ih.2 cs t w hcs ht.2]
    · intro l t w hl ht
      cases l with
      | nil => simp [PElem.setValueAtList]
      | cons c cs =>
        have hc : sizeOf c ≤ N := by simp at hl; omega
        have hcs : sizeOf cs ≤ N := by simp at hl; omega
        simp only [PElem.idsList, List.mem_append, not_or] at ht
        simp only [PElem.setValueAtList]
        rw [ih.1 c t w hc ht.1, ih.2 cs t w hcs ht.2]

/-- A pointer-level clone erases to the same structural tree as its source. -/
theorem PElem.cloneAlloc_erase (e : PElem) (ctr : Nat) :
    PElem.erase (PElem.cloneAlloc e ctr).1 = PElem.erase e :=
  ((PElem.cloneAlloc_facts (sizeOf e)).1 e ctr le_rfl).1

/-- Every address of a pointer-level clone is at least the allocation
counter the clone started from. -/
theorem PElem.cloneAlloc_ids_ge (e : PElem) (ctr : Nat) :
    ∀ i ∈ PElem.ids (PElem.cloneAlloc e ctr).1, ctr ≤ i :=
  fun i hi => (((PElem.cloneAlloc_facts (sizeOf e)).1 e ctr le_rfl).2.2 i hi).1

/-- Mutation through an address foreign to a subtree is invisible in it. -/
theorem PElem.setValueAt_of_not_mem (e : PElem) (t : Nat) (w : SdfValue)
    (h : t ∉ PElem.ids e) : PElem.setValueAt e t w = e :=
  (PElem.setValueAt_facts (sizeOf e)).1 e t w le_rfl h

/-- Clone isolation at the pointer level: when the allocation counter is fresh
for the source, the clone is structurally equal to the source, while mutating
any address of the clone leaves the source unchanged and mutating any address
of the source leaves the clone unchanged. -/
theorem PElem.clone_isolated (pe : PElem) (ctr : Nat)
    (hfresh : ∀ i ∈ PElem.ids pe, i < ctr) :
    PElem.erase (PElem.cloneAlloc pe ctr).1 = PElem.erase pe ∧
    (∀ t w, t ∈ PElem.ids (PElem.cloneAlloc pe ctr).1 → PElem.setValueAt pe t w = pe) ∧
    (∀ t w, t ∈ PElem.ids pe →
       PElem.setValueAt (PElem.cloneAlloc pe ctr).1 t w = (PElem.cloneAlloc pe ctr).1) := by
  refine ⟨PElem.cloneAlloc_erase pe ctr, ?_, ?_⟩
  · intro t w ht
    apply PElem.setValueAt_of_not_mem
    intro hmem
    have h1 := PElem.cloneAlloc_ids_ge pe ctr t ht
    have h2 := hfresh t hmem
    omega
  · intro t w ht
    apply PElem.setValueAt_of_not_mem
    intro hmem
    have h1 := PElem.cloneAlloc_ids_ge pe ctr t hmem
    have h2 := hfresh t ht
    omega

/-! Helper lemmas about the pure extractors. -/

/-- Deep-copying every tree of a list denotes the identity on the list. -/
theorem SdfElement.map_clone (l : List SdfElement) : l.map SdfElement.clone = l := by
  calc l.map SdfElement.clone
      = l.map id := List.map_congr_left (fun a _ => SdfElement.clone_eq a)
    _ = l := List.map_id l

/-- Without a matching child the tag filter is empty. -/
theorem SdfElement.getElements_eq_nil {e : SdfElement} {tag : String}
    (h : e.hasElement tag = false) : e.getElements tag = [] := by
  unfold SdfElement.hasElement at h
  simpa [List.isEmpty_iff] using h

/-- With a matching child, GetElement finds it and inserts nothing. -/
theorem SdfElement.getElementS_of_hasElement {e : SdfElement} {tag : String}
    (h : e.hasElement tag = true) : e.getElementS tag = (e.getElement tag, e) := by
  unfold SdfElement.getElementS SdfElement.getElement
  unfold SdfElement.hasElement at h
  cases hh : (e.getElements tag).head? with
  | none =>
    rw [List.head?_eq_none_iff] at hh
    rw [hh] at h
    simp at h
  | some c => simp

/-- A required single child in particular exists. -/
theorem SdfElement.hasElement_of_hasExactlyOne {e : SdfElement} {tag : String}
    (h : hasExactlyOne e tag = true) : e.hasElement tag = true := by
  unfold hasExactlyOne at h
  unfold SdfElement.hasElement
  simp only [decide_eq_true_eq] at h
  cases hh : e.getElements tag with
  | nil => rw [hh] at h; simp at h
  | cons c cs => simp

/-- Closed form of the element loop body: the HasElement guards are redundant
because an absent tag filters to the empty list, and a deep copy denotes its
source, so each stored list is exactly the source child list of its tag. -/
theorem LoadPatternElement_eq (e : SdfElement) :
    LoadPatternElement e =
      { collision_sdfs := e.getElements "collision",
        visual_sdfs := e.getElements "visual" } := by
  unfold LoadPatternElement
  congr 1
  · cases h : e.hasElement "collision" with
    | false => rw [SdfElement.getElements_eq_nil h]; simp
    | true => simp [SdfElement.map_clone]
  · cases h : e.hasElement "visual" with
    | false => rw [SdfElement.getElements_eq_nil h]; simp
    | true => simp [SdfElement.map_clone]

/-- A successful segment loop run pairs the visited segment elements with the
produced segments one to one, in order. -/
theorem LoadSegments_ok_forall₂ (m : Model) :
    ∀ {l : List SdfElement} {ss : List Trajectory.Segment},
      LoadSegments m l = .ok ss →
      List.Forall₂ (fun seg s => LoadSegment m seg = .ok s) l ss := by
  intro l
  induction l with
  | nil =>
    intro ss h
    unfold LoadSegments at h
    simp only [Except.ok.injEq] at h
    subst h
    exact List.Forall₂.nil
  | cons seg rest ih =>
    intro ss h
    unfold LoadSegments at h
    cases h1 : LoadSegment m seg with
    | error e => rw [h1] at h; simp at h
    | ok s =>
      rw [h1] at h
      cases h2 : LoadSegments m rest with
      | error e => rw [h2] at h; simp at h
      | ok ss2 =>
        rw [h2] at h
        simp only [Except.ok.injEq] at h
        subst h
        exact List.Forall₂.cons h1 (ih h2)

/-- The segment loop aborts whenever some visited segment fails. -/
theorem LoadSegments_error_of_mem (m : Model) :
    ∀ {l : List SdfElement} {seg : SdfElement} {e : LoadError},
      seg ∈ l → LoadSegment m seg = .error e →
      ∃ e2, LoadSegments m l = .error e2 := by
  intro l
  induction l with
  | nil => intro seg e h _; simp at h
  | cons c rest ih =>
    intro seg e hmem hseg
    unfold LoadSegments
    cases h1 : LoadSegment m c with
    | error e1 => exact ⟨e1, rfl⟩
    | ok s =>
      rcases List.mem_cons.mp hmem with rfl | hmem2
      · rw [h1] at hseg; simp at hseg
      · obtain ⟨e2, h2⟩ := ih hmem2 hseg
        refine ⟨e2, ?_⟩
        rw [h2]

/-- A schema-conforming trajectory subtree has segment children, so the loop
visits exactly the segment children. -/
theorem conformsTrajectory_hasElement {t : SdfElement}
    (hc : conformsTrajectory t = true) : t.hasElement "segment" = true := by
  unfold conformsTrajectory at hc
  simp only [Bool.and_eq_true] at hc
  exact hc.1

/-- Every segment child of a schema-conforming trajectory subtree conforms. -/
theorem conformsTrajectory_all {t : SdfElement}
    (hc : conformsTrajectory t = true) :
    ∀ seg ∈ t.getElements "segment", conformsSegment seg = true := by
  unfold conformsTrajectory at hc
  simp only [Bool.and_eq_true, List.all_eq_true] at hc
  exact hc.2

/-- On conforming input, a successful LoadTrajectory pairs the segment
children with the produced segments one to one, in order. -/
theorem LoadTrajectory_ok_forall₂ {m : Model} {t : SdfElement} {tr : Trajectory}
    (hc : conformsTrajectory t = true) (h : LoadTrajectory m t = .ok tr) :
    List.Forall₂ (fun seg s => LoadSegment m seg = .ok s)
      (t.getElements "segment") tr.segments := by
  unfold LoadTrajectory at h
  rw [if_pos (conformsTrajectory_hasElement hc)] at h
  simp only [] at h
  cases h2 : LoadSegments m (t.getElements "segment") with
  | error e => rw [h2] at h; simp at h
  | ok ss =>
    rw [h2] at h
    simp only [Except.ok.injEq] at h
    subst h
    exact LoadSegments_ok_forall₂ m h2

/-- On conforming input, LoadTrajectory aborts whenever one of the segment
children fails. -/
theorem LoadTrajectory_error_of_mem {m : Model} {t seg : SdfElement} {e : LoadError}
    (hc : conformsTrajectory t = true) (hmem : seg ∈ t.getElements "segment")
    (hseg : LoadSegment m seg = .error e) :
    ∃ e2, LoadTrajectory m t = .error e2 := by
  obtain ⟨e2, h2⟩ := LoadSegments_error_of_mem m hmem hseg
  refine ⟨e2, ?_⟩
  unfold LoadTrajectory
  rw [if_pos (conformsTrajectory_hasElement hc)]
  simp only []
  rw [h2]

/-- A failed schema assertion short-circuits the whole construction. -/
theorem CTP_schema_fail (m : Model) (sdf : SdfElement)
    (h : conformsToSchema sdf = false) :
    ContinuousTrackProperties m sdf = .error .SchemaViolation := by
  unfold ContinuousTrackProperties AssertPluginSDF
  rw [h]
  rfl

/-- After a successful schema assertion, the construction is exactly the three
extractors run in order on the children of the raw input tree, aborting at the
first failure. -/
theorem CTP_ok_unfold (m : Model) (sdf : SdfElement)
    (h : conformsToSchema sdf = true) :
    ContinuousTrackProperties m sdf =
      (match LoadSprocket m (sdf.getElement "sprocket") with
       | .error e => .error e
       | .ok sprocket =>
         match LoadTrajectory m (sdf.getElement "trajectory") with
         | .error e => .error e
         | .ok trajectory =>
           match LoadPattern m (sdf.getElement "pattern") with
           | .error e => .error e
           | .ok pattern =>
             .ok { sprocket := sprocket, trajectory := trajectory,
                   pattern := pattern }) := by
  unfold ContinuousTrackProperties AssertPluginSDF
  rw [h]
  rfl

/-! Frame lemmas: on schema-conforming input every GetElement call of the
extractors finds an existing child, so the state-passing extractors return the
input tree unchanged and agree with the pure extractors. -/

/-- On a conforming sprocket subtree, LoadSprocket has no tree effect. -/
theorem LoadSprocketS_frame (m : Model) (s : SdfElement)
    (hc : conformsSprocket s = true) :
    LoadSprocketS m s = (LoadSprocket m s).map (fun x => (x, s)) := by
  unfold conformsSprocket at hc
  simp only [Bool.and_eq_true] at hc
  obtain ⟨⟨⟨hj, _⟩, hp⟩, _⟩ := hc
  have hjh := SdfElement.getElementS_of_hasElement (SdfElement.hasElement_of_hasExactlyOne hj)
  have hph := SdfElement.getElementS_of_hasElement (SdfElement.hasElement_of_hasExactlyOne hp)
  unfold LoadSprocketS LoadSprocket
  rw [hjh]
  simp only []
  cases hgj : m.GetJoint ((s.getElement "joint").getString) with
  | none => rfl
  | some j =>
    by_cases hk : j.GetType &&& HINGE_JOINT ≠ 0
    · simp [hk, hph, Except.map]
    · simp [hk, Except.map]

/-- On a conforming segment subtree, the segment loop body has no tree
effect. -/
theorem LoadSegmentS_frame (m : Model) (seg : SdfElement)
    (hc : conformsSegment seg = true) :
    LoadSegmentS m seg = (LoadSegment m seg).map (fun x => (x, seg)) := by
  unfold conformsSegment at hc
  simp only [Bool.and_eq_true] at hc
  obtain ⟨⟨⟨hj, _⟩, hp⟩, _⟩ := hc
  have hjh := SdfElement.getElementS_of_hasElement (SdfElement.hasElement_of_hasExactlyOne hj)
  have hph := SdfElement.getElementS_of_hasElement (SdfElement.hasElement_of_hasExactlyOne hp)
  unfold LoadSegmentS LoadSegment
  rw [hjh]
  simp only []
  cases hgj : m.GetJoint ((seg.getElement "joint").getString) with
  | none => rfl
  | some j =>
    by_cases hk : j.GetType &&& HINGE_JOINT ≠ 0 ∨ j.GetType &&& SLIDER_JOINT ≠ 0
    · by_cases hep : 0 < (seg.getElement "end_position").getDouble
      · simp [hk, hep, hph, Except.map]
      · simp [hk, hep, hph, Except.map]
    · simp [hk, Except.map]

/-- Over a children list whose segment-tagged members conform, the segment
loop has no tree effect and produces the segments of the tag filter. -/
theorem LoadSegmentsS_frame (m : Model) :
    ∀ cs : List SdfElement,
      (∀ c ∈ cs, c.name = "segment" → conformsSegment c = true) →
      LoadSegmentsS m cs =
        (LoadSegments m (cs.filter (fun c => c.name = "segment"))).map
          (fun ss => (ss, cs)) := by
  intro cs
  induction cs with
  | nil => intro _; rfl
  | cons c rest ih =>
    intro hall
    unfold LoadSegmentsS
    by_cases hname : c.name = "segment"
    · rw [if_pos hname]
      rw [LoadSegmentS_frame m c (hall c (by simp) hname)]
      rw [ih (fun x hx hn => hall x (by simp [hx]) hn)]
      rw [List.filter_cons_of_pos (by simp [hname])]
      cases h1 : LoadSegment m c with
      | error e => simp [Except.map, LoadSegments, h1]
      | ok s =>
        cases h2 : LoadSegments m (rest.filter (fun x => x.name = "segment")) with
        | error e => simp [Except.map, LoadSegments, h1, h2]
        | ok ss => simp [Except.map, LoadSegments, h1, h2]
    · rw [if_neg hname]
      rw [ih (fun x hx hn => hall x (by simp [hx]) hn)]
      rw [List.filter_cons_of_neg (by simp [hname])]
      cases h2 : LoadSegments m (rest.filter (fun x => x.name = "segment")) with
      | error e => simp [Except.map, h2]
      | ok ss => simp [Except.map, h2]

/-- On a conforming trajectory subtree, LoadTrajectory has no tree effect. -/
theorem LoadTrajectoryS_frame (m : Model) (t : SdfElement)
    (hc : conformsTrajectory t = true) :
    LoadTrajectoryS m t = (LoadTrajectory m t).map (fun x => (x, t)) := by
  have hhas := conformsTrajectory_hasElement hc
  have hall : ∀ c ∈ t.children, c.name = "segment" → conformsSegment c = true := by
    intro c hcmem hn
    apply conformsTrajectory_all hc
    unfold SdfElement.getElements
    rw [List.mem_filter]
    exact ⟨hcmem, by simp [hn]⟩
  unfold LoadTrajectoryS LoadTrajectory
  rw [if_pos hhas, if_pos hhas]
  simp only []
  rw [LoadSegmentsS_frame m t.children hall]
  have hfe : t.children.filter (fun c => c.name = "segment") = t.getElements "segment" := rfl
  rw [hfe]
  cases h2 : LoadSegments m (t.getElements "segment") with
  | error e => rfl
  | ok ss =>
    simp only [Except.map]
    rw [SdfElement.eta]

/-- On a conforming pattern subtree, LoadPattern has no tree effect. -/
theorem LoadPatternS_frame (m : Model) (p : SdfElement)
    (hc : conformsPattern p = true) :
    LoadPatternS m p = (LoadPattern m p).map (fun x => (x, p)) := by
  unfold conformsPattern at hc
  simp only [Bool.and_eq_true] at hc
  obtain ⟨⟨hepr, _⟩, hne⟩ := hc
  have heprS := SdfElement.getElementS_of_hasElement (SdfElement.hasElement_of_hasExactlyOne hepr)
  have hhase : p.hasElement "element" = true := hne
  unfold LoadPatternS LoadPattern
  rw [heprS]
  simp only []
  by_cases h0 : 0 < (p.getElement "elements_per_round").getUInt
  · rw [if_pos h0, if_pos h0, if_pos hhase, if_pos hhase]
    rfl
  · rw [if_neg h0, if_neg h0]
    rfl

/-! Concrete example models and configuration trees for witnesses and
counterexamples. -/

/-- Example rotational joint. -/
def wheelJoint : Joint := { name := "wheel", jointType := HINGE_JOINT }

/-- Example translational joint. -/
def idlerJoint : Joint := { name := "idler", jointType := SLIDER_JOINT }

/-- Example joint that is neither rotational nor translational. -/
def ballJoint : Joint := { name := "ball", jointType := BALL_JOINT }

/-- Example model holding the three joints above. -/
def exModel : Model := { joints := [wheelJoint, idlerJoint, ballJoint] }

/-- Leaf element with a string value. -/
def strElem (tag s : String) : SdfElement := .mk tag (.str s) []

/-- Leaf element with a numeric value. -/
def numElem (tag : String) (q : ℚ) : SdfElement := .mk tag (.num q) []

/-- Leaf element with an unsigned value. -/
def uintElem (tag : String) (n : Nat) : SdfElement := .mk tag (.uint n) []

/-- Example sprocket subtree with pitch diameter 2. -/
def exSprocketSdf : SdfElement :=
  .mk "sprocket" .noValue [strElem "joint" "wheel", numElem "pitch_diameter" 2]

/-- Example segment subtree with end position 0.001. -/
def exSegmentSdf : SdfElement :=
  .mk "segment" .noValue [strElem "joint" "wheel", numElem "end_position" (mkRat 1 1000)]

/-- Example trajectory subtree with one segment. -/
def exTrajectorySdf : SdfElement := .mk "trajectory" .noValue [exSegmentSdf]

/-- Example opaque collision subtree. -/
def exCollisionA : SdfElement := .mk "collision" .noValue [strElem "geometry" "boxA"]

/-- Second example opaque collision subtree. -/
def exCollisionB : SdfElement := .mk "collision" .noValue [strElem "geometry" "boxB"]

/-- Example opaque visual subtree. -/
def exVisualA : SdfElement := .mk "visual" .noValue []

/-- First example pattern element: two collisions, no visual. -/
def exElement1 : SdfElement := .mk "element" .noValue [exCollisionA, exCollisionB]

/-- Second example pattern element: one visual, no collision. -/
def exElement2 : SdfElement := .mk "element" .noValue [exVisualA]

/-- Example pattern subtree: five elements per round, two elements. -/
def exPatternSdf : SdfElement :=
  .mk "pattern" .noValue [uintElem "elements_per_round" 5, exElement1, exElement2]

/-- Example schema-conforming plugin configuration tree. -/
def exSdf : SdfElement := .mk "plugin" .noValue [exSprocketSdf, exTrajectorySdf, exPatternSdf]

/-- Expected sprocket extracted from the example tree. -/
def exSprocket : Sprocket := { joint := wheelJoint, pitch_diameter := 2 }

/-- Expected segment extracted from the example tree. -/
def exSegment : Trajectory.Segment := { joint := wheelJoint, end_position := mkRat 1 1000 }

/-- Expected trajectory extracted from the example tree. -/
def exTrajectory : Trajectory := { segments := [exSegment] }

/-- Expected first pattern element extracted from the example tree. -/
def exPatternElement1 : Pattern.Element :=
  { collision_sdfs := [exCollisionA, exCollisionB], visual_sdfs := [] }

/-- Expected second pattern element extracted from the example tree. -/
def exPatternElement2 : Pattern.Element :=
  { collision_sdfs := [], visual_sdfs := [exVisualA] }

/-- Expected pattern extracted from the example tree. -/
def exPattern : Pattern :=
  { elements_per_round := 5, elements := [exPatternElement1, exPatternElement2] }

/-- Expected aggregate extracted from the example tree. -/
def exProperties : Properties :=
  { sprocket := exSprocket, trajectory := exTrajectory, pattern := exPattern }

/-- Variant of the example tree whose sprocket has pitch diameter 3. -/
def exSprocketSdfB : SdfElement :=
  .mk "sprocket" .noValue [strElem "joint" "wheel", numElem "pitch_diameter" 3]

/-- Variant plugin tree, differing from the example only in pitch diameter. -/
def exSdfB : SdfElement := .mk "plugin" .noValue [exSprocketSdfB, exTrajectorySdf, exPatternSdf]

/-- Expected sprocket of the variant tree. -/
def exSprocketB : Sprocket := { joint := wheelJoint, pitch_diameter := 3 }

/-- Expected aggregate of the variant tree. -/
def exPropertiesB : Properties :=
  { sprocket := exSprocketB, trajectory := exTrajectory, pattern := exPattern }

/-- Variant of the example tree whose sprocket has pitch diameter -1. -/
def exSprocketSdfNeg : SdfElement :=
  .mk "sprocket" .noValue [strElem "joint" "wheel", numElem "pitch_diameter" (-1)]

/-- Variant plugin tree with the negative pitch diameter. -/
def exSdfNeg : SdfElement :=
  .mk "plugin" .noValue [exSprocketSdfNeg, exTrajectorySdf, exPatternSdf]

/-- Expected sprocket of the negative-pitch tree. -/
def exSprocketNeg : Sprocket := { joint := wheelJoint, pitch_diameter := -1 }

/-- Expected aggregate of the negative-pitch tree. -/
def exPropertiesNeg : Properties :=
  { sprocket := exSprocketNeg, trajectory := exTrajectory, pattern := exPattern }

/-- Segment subtree naming a joint absent from the example model. -/
def exSegmentSdfBad : SdfElement :=
  .mk "segment" .noValue [strElem "joint" "ghost", numElem "end_position" 1]

/-- Pattern subtree with elements-per-round zero. -/
def exPatternSdf0 : SdfElement :=
  .mk "pattern" .noValue [uintElem "elements_per_round" 0, exElement1]

/-- Example addressed tree for the pointer-level clone witness. -/
def exPElem : PElem := .mk 0 "collision" (.str "x") [.mk 1 "geometry" .noValue []]

/-! Concrete evaluation lemmas.  LoadPattern is evaluated through its
clone-free closed form because the deep copy is defined by well-founded
recursion and does not reduce definitionally. -/

/-- Clone-free closed form of LoadPattern. -/
theorem LoadPattern_clone_free (m : Model) (p : SdfElement) :
    LoadPattern m p =
      (let epr := (p.getElement "elements_per_round").getUInt
       if 0 < epr then
         .ok { elements_per_round := epr,
               elements :=
                 (if p.hasElement "element" then p.getElements "element"
                  else [SdfElement.emptyElement "element"]).map
                   (fun e => { collision_sdfs := e.getElements "collision",
                               visual_sdfs := e.getElements "visual" }) }
       else .error .ElementsPerRoundNonPositive) := by
  unfold LoadPattern
  simp only []
  by_cases h0 : 0 < (p.getElement "elements_per_round").getUInt
  · rw [if_pos h0, if_pos h0]
    congr 2
    apply List.map_congr_left
    intro e _
    exact LoadPatternElement_eq e
  · rw [if_neg h0, if_neg h0]

/-- The elements and repeat count of a successfully loaded pattern. -/
theorem LoadPattern_fields {m : Model} {sdf : SdfElement} {p : Pattern}
    (hp : LoadPattern m sdf = .ok p) :
    p.elements_per_round = (sdf.getElement "elements_per_round").getUInt ∧
    p.elements =
      (if sdf.hasElement "element" then sdf.getElements "element"
       else [SdfElement.emptyElement "element"]).map LoadPatternElement := by
  unfold LoadPattern at hp
  by_cases h0 : 0 < (sdf.getElement "elements_per_round").getUInt
  · rw [if_pos h0] at hp
    simp only [Except.ok.injEq] at hp
    subst hp
    exact ⟨rfl, rfl⟩
  · rw [if_neg h0] at hp
    simp at hp

/-- Evaluation of LoadPattern on the example pattern subtree. -/
theorem exLoadPattern_eq : LoadPattern exModel exPatternSdf = .ok exPattern := by
  rw [LoadPattern_clone_free]
  rfl

/-- Evaluation of the constructor on the example tree. -/
theorem exCTP_eq : ContinuousTrackProperties exModel exSdf = .ok exProperties := by
  rw [CTP_ok_unfold exModel exSdf (by decide)]
  rw [show LoadSprocket exModel (exSdf.getElement "sprocket") = .ok exSprocket from rfl]
  rw [show LoadTrajectory exModel (exSdf.getElement "trajectory") = .ok exTrajectory from rfl]
  rw [show exSdf.getElement "pattern" = exPatternSdf from rfl, exLoadPattern_eq]
  rfl

/-- Evaluation of the constructor on the variant tree. -/
theorem exCTPB_eq : ContinuousTrackProperties exModel exSdfB = .ok exPropertiesB := by
  rw [CTP_ok_unfold exModel exSdfB (by decide)]
  rw [show LoadSprocket exModel (exSdfB.getElement "sprocket") = .ok exSprocketB from rfl]
  rw [show LoadTrajectory exModel (exSdfB.getElement "trajectory") = .ok exTrajectory from rfl]
  rw [show exSdfB.getElement "pattern" = exPatternSdf from rfl, exLoadPattern_eq]
  rfl

/-- Evaluation of the constructor on the negative-pitch tree. -/
theorem exCTPNeg_eq : ContinuousTrackProperties exModel exSdfNeg = .ok exPropertiesNeg := by
  rw [CTP_ok_unfold exModel exSdfNeg (by decide)]
  rw [show LoadSprocket exModel (exSdfNeg.getElement "sprocket") = .ok exSprocketNeg from rfl]
  rw [show LoadTrajectory exModel (exSdfNeg.getElement "trajectory") = .ok exTrajectory from rfl]
  rw [show exSdfNeg.getElement "pattern" = exPatternSdf from rfl, exLoadPattern_eq]
  rfl

/-! Claim theorems. -/

/-- C1: construction of the Properties aggregate runs the schema assertion
first; on schema failure the result is the schema violation and no extractor
result is produced; on success the three extractors run on the sprocket,
trajectory and pattern children in this fixed order, the first extractor
failure aborts the whole construction with that failure, and only when all
three succeed is a fully populated Properties value produced.  In this Except
embedding every failure path yields an error and no partially populated
Properties value exists. -/
theorem C1_atomic_construction (m : Model) (sdf : SdfElement) :
    (conformsToSchema sdf = false →
       ContinuousTrackProperties m sdf = .error .SchemaViolation) ∧
    (conformsToSchema sdf = true →
       (∀ e, LoadSprocket m (sdf.getElement "sprocket") = .error e →
          ContinuousTrackProperties m sdf = .error e) ∧
       (∀ s e, LoadSprocket m (sdf.getElement "sprocket") = .ok s →
          LoadTrajectory m (sdf.getElement "trajectory") = .error e →
          ContinuousTrackProperties m sdf = .error e) ∧
       (∀ s t e, LoadSprocket m (sdf.getElement "sprocket") = .ok s →
          LoadTrajectory m (sdf.getElement "trajectory") = .ok t →
          LoadPattern m (sdf.getElement "pattern") = .error e →
          ContinuousTrackProperties m sdf = .error e) ∧
       (∀ s t p, LoadSprocket m (sdf.getElement "sprocket") = .ok s →
          LoadTrajectory m (sdf.getElement "trajectory") = .ok t →
          LoadPattern m (sdf.getElement "pattern") = .ok p →
          ContinuousTrackProperties m sdf =
            .ok { sprocket := s, trajectory := t, pattern := p })) := by
  constructor
  · intro h
    exact CTP_schema_fail m sdf h
  · intro h
    refine ⟨?_, ?_, ?_, ?_⟩
    · intro e h1
      rw [CTP_ok_unfold m sdf h, h1]
    · intro s e h1 h2
      rw [CTP_ok_unfold m sdf h, h1, h2]
    · intro s t e h1 h2 h3
      rw [CTP_ok_unfold m sdf h, h1, h2, h3]
    · intro s t p h1 h2 h3
      rw [CTP_ok_unfold m sdf h, h1, h2, h3]

/-- C1 witness: on the example model and tree the schema conforms, the three
extractors succeed and the construction produces the fully populated
aggregate. -/
theorem C1_witness :
    conformsToSchema exSdf = true ∧
    ContinuousTrackProperties exModel exSdf = .ok exProperties := by
  have hc : conformsToSchema exSdf = true := by decide
  have hs : LoadSprocket exModel (exSdf.getElement "sprocket") = .ok exSprocket := rfl
  have ht : LoadTrajectory exModel (exSdf.getElement "trajectory") = .ok exTrajectory := rfl
  have hp : LoadPattern exModel (exSdf.getElement "pattern") = .ok exPattern := by
    rw [show exSdf.getElement "pattern" = exPatternSdf from rfl, exLoadPattern_eq]
  exact ⟨hc, ((C1_atomic_construction exModel exSdf).2 hc).2.2.2 exSprocket exTrajectory
    exPattern hs ht hp⟩

/-- C2 counterexample: the validation operation of the source returns no tree
(void), so its success value on any two conforming inputs is the identical
unit value; yet the construction results differ between two such inputs,
hence the extractors do not consume a tree returned by the validation
operation but the raw caller-supplied tree. -/
theorem C2_counterexample :
    AssertPluginSDF exSdf = .ok () ∧
    AssertPluginSDF exSdfB = .ok () ∧
    ContinuousTrackProperties exModel exSdf ≠ ContinuousTrackProperties exModel exSdfB := by
  refine ⟨rfl, rfl, ?_⟩
  intro h
  rw [exCTP_eq, exCTPB_eq] at h
  simp only [Except.ok.injEq] at h
  have h2 := congrArg (fun p => p.sprocket.pitch_diameter) h
  simp only [exProperties, exPropertiesB, exSprocket, exSprocketB] at h2
  norm_num at h2

/-- C2 (amended): for every schema-conforming input the validation operation
succeeds, returning only a unit acknowledgement and no tree; the three
extractors consume the raw caller-supplied tree, which, having passed
validation, contains every required element, so they may assume presence of
required fields without existence checks. -/
theorem C2_amended (m : Model) (sdf : SdfElement)
    (h : conformsToSchema sdf = true) :
    AssertPluginSDF sdf = .ok () ∧
    ContinuousTrackProperties m sdf =
      (match LoadSprocket m (sdf.getElement "sprocket") with
       | .error e => .error e
       | .ok sprocket =>
         match LoadTrajectory m (sdf.getElement "trajectory") with
         | .error e => .error e
         | .ok trajectory =>
           match LoadPattern m (sdf.getElement "pattern") with
           | .error e => .error e
           | .ok pattern =>
             .ok { sprocket := sprocket, trajectory := trajectory,
                   pattern := pattern }) ∧
    sdf.hasElement "sprocket" = true ∧
    (sdf.getElement "sprocket").hasElement "joint" = true ∧
    (sdf.getElement "sprocket").hasElement "pitch_diameter" = true ∧
    sdf.hasElement "trajectory" = true ∧
    (sdf.getElement "trajectory").getElements "segment" ≠ [] ∧
    (∀ seg ∈ (sdf.getElement "trajectory").getElements "segment",
       seg.hasElement "joint" = true ∧ seg.hasElement "end_position" = true) ∧
    sdf.hasElement "pattern" = true ∧
    (sdf.getElement "pattern").hasElement "elements_per_round" = true ∧
    (sdf.getElement "pattern").getElements "element" ≠ [] := by
  have hc := h
  unfold conformsToSchema at hc
  simp only [Bool.and_eq_true] at hc
  obtain ⟨⟨⟨⟨⟨hsp1, hsp2⟩, htr1⟩, htr2⟩, hpa1⟩, hpa2⟩ := hc
  unfold conformsSprocket at hsp2
  simp only [Bool.and_eq_true] at hsp2
  obtain ⟨⟨⟨hj, _⟩, hpd⟩, _⟩ := hsp2
  unfold conformsPattern at hpa2
  simp only [Bool.and_eq_true] at hpa2
  obtain ⟨⟨hepr, _⟩, hne⟩ := hpa2
  refine ⟨?_, CTP_ok_unfold m sdf h, ?_, ?_, ?_, ?_, ?_, ?_, ?_, ?_, ?_⟩
  · unfold AssertPluginSDF
    rw [h]
    rfl
  · exact SdfElement.hasElement_of_hasExactlyOne hsp1
  · exact SdfElement.hasElement_of_hasExactlyOne hj
  · exact SdfElement.hasElement_of_hasExactlyOne hpd
  · exact SdfElement.hasElement_of_hasExactlyOne htr1
  · have hh := conformsTrajectory_hasElement htr2
    unfold SdfElement.hasElement at hh
    simp only [Bool.not_eq_true', List.isEmpty_eq_false] at hh
    exact hh
  · intro seg hseg
    have hcs := conformsTrajectory_all htr2 seg hseg
    unfold conformsSegment at hcs
    simp only [Bool.and_eq_true] at hcs
    obtain ⟨⟨⟨h1, _⟩, h2⟩, _⟩ := hcs
    exact ⟨SdfElement.hasElement_of_hasExactlyOne h1,
           SdfElement.hasElement_of_hasExactlyOne h2⟩
  · exact SdfElement.hasElement_of_hasExactlyOne hpa1
  · exact SdfElement.hasElement_of_hasExactlyOne hepr
  · simp only [Bool.not_eq_true', List.isEmpty_eq_false] at hne
    exact hne

/-- C2 witness: the amended statement at the example tree. -/
theorem C2_witness :
    AssertPluginSDF exSdf = .ok () ∧ exSdf.hasElement "sprocket" = true := by
  have h := C2_amended exModel exSdf (by decide)
  exact ⟨h.1, h.2.2.1⟩

/-- C3 counterexample: a schema-conforming tree whose pitch diameter is -1 is
accepted, construction succeeds, and the resulting sprocket has a
non-positive pitch diameter: the extractor performs no positivity check on
this field. -/
theorem C3_counterexample :
    conformsToSchema exSdfNeg = true ∧
    ContinuousTrackProperties exModel exSdfNeg = .ok exPropertiesNeg ∧
    ¬ 0 < exPropertiesNeg.sprocket.pitch_diameter := by
  refine ⟨by decide, exCTPNeg_eq, ?_⟩
  simp only [exPropertiesNeg, exSprocketNeg]
  norm_num

/-- C3 (amended): the pitch diameter of every successfully extracted Sprocket
equals the scalar read from the input tree, with no positivity constraint:
it is positive exactly when the input value is. -/
theorem C3_amended (m : Model) (sdf : SdfElement) (s : Sprocket)
    (h : LoadSprocket m sdf = .ok s) :
    s.pitch_diameter = (sdf.getElement "pitch_diameter").getDouble := by
  unfold LoadSprocket at h
  cases hgj : m.GetJoint ((sdf.getElement "joint").getString) with
  | none => rw [hgj] at h; simp at h
  | some j =>
    rw [hgj] at h
    simp only [] at h
    by_cases hk : j.GetType &&& HINGE_JOINT ≠ 0
    · rw [if_pos hk] at h
      simp only [Except.ok.injEq] at h
      subst h
      rfl
    · rw [if_neg hk] at h
      simp at h

/-- C3 witness: the amended statement at the example sprocket subtree. -/
theorem C3_witness :
    exSprocket.pitch_diameter =
      ((exSdf.getElement "sprocket").getElement "pitch_diameter").getDouble :=
  C3_amended exModel (exSdf.getElement "sprocket") exSprocket rfl

/-- C4: sprocket extraction fails with the missing-joint violation exactly
when the joint name does not resolve in the model, fails with the wrong-kind
violation when the resolved joint is not rotational, and otherwise succeeds
with that joint handle and the pitch-diameter scalar. -/
theorem C4_sprocket_cases (m : Model) (sdf : SdfElement) :
    (m.GetJoint ((sdf.getElement "joint").getString) = none →
       LoadSprocket m sdf = .error .SprocketJointMissing) ∧
    (∀ j, m.GetJoint ((sdf.getElement "joint").getString) = some j →
       j.GetType &&& HINGE_JOINT = 0 →
       LoadSprocket m sdf = .error .SprocketJointWrongKind) ∧
    (∀ j, m.GetJoint ((sdf.getElement "joint").getString) = some j →
       j.GetType &&& HINGE_JOINT ≠ 0 →
       LoadSprocket m sdf =
         .ok { joint := j,
               pitch_diameter := (sdf.getElement "pitch_diameter").getDouble }) := by
  refine ⟨?_, ?_, ?_⟩
  · intro h
    unfold LoadSprocket
    rw [h]
  · intro j h hk
    unfold LoadSprocket
    rw [h]
    simp [hk]
  · intro j h hk
    unfold LoadSprocket
    rw [h]
    simp [hk]

/-- C4 witness: on the example model and sprocket subtree the joint resolves
to the rotational wheel joint and extraction succeeds. -/
theorem C4_witness :
    LoadSprocket exModel exSprocketSdf =
      .ok { joint := wheelJoint,
            pitch_diameter := (exSprocketSdf.getElement "pitch_diameter").getDouble } :=
  (C4_sprocket_cases exModel exSprocketSdf).2.2 wheelJoint (by decide) (by decide)

/-- C5: each trajectory segment fails with the missing-joint violation when
its joint does not resolve, with the wrong-kind violation when the resolved
joint is neither rotational nor translational, and with the non-positive
end-position violation when its end position is at most 0; any failing
segment aborts the whole trajectory extraction; and on the example tree whose
only segment has end position 0.001 the construction succeeds with exactly
that value in the resulting segment. -/
theorem C5_trajectory_checks (m : Model) (t : SdfElement) :
    (∀ seg : SdfElement,
       (m.GetJoint ((seg.getElement "joint").getString) = none →
          LoadSegment m seg = .error .SegmentJointMissing) ∧
       (∀ j, m.GetJoint ((seg.getElement "joint").getString) = some j →
          j.GetType &&& HINGE_JOINT = 0 → j.GetType &&& SLIDER_JOINT = 0 →
          LoadSegment m seg = .error .SegmentJointWrongKind) ∧
       (∀ j, m.GetJoint ((seg.getElement "joint").getString) = some j →
          (j.GetType &&& HINGE_JOINT ≠ 0 ∨ j.GetType &&& SLIDER_JOINT ≠ 0) →
          (seg.getElement "end_position").getDouble ≤ 0 →
          LoadSegment m seg = .error .SegmentEndPositionNonPositive) ∧
       (∀ j, m.GetJoint ((seg.getElement "joint").getString) = some j →
          (j.GetType &&& HINGE_JOINT ≠ 0 ∨ j.GetType &&& SLIDER_JOINT ≠ 0) →
          0 < (seg.getElement "end_position").getDouble →
          LoadSegment m seg =
            .ok { joint := j,
                  end_position := (seg.getElement "end_position").getDouble })) ∧
    (∀ seg e, conformsTrajectory t = true → seg ∈ t.getElements "segment" →
       LoadSegment m seg = .error e → ∃ e2, LoadTrajectory m t = .error e2) ∧
    (ContinuousTrackProperties exModel exSdf = .ok exProperties ∧
     exProperties.trajectory.segments =
       [{ joint := wheelJoint, end_position := mkRat 1 1000 }] ∧
     exSegment.end_position = 0.001) := by
  refine ⟨?_, ?_, exCTP_eq, rfl, by norm_num [exSegment, mkRat]⟩
  · intro seg
    refine ⟨?_, ?_, ?_, ?_⟩
    · intro h
      unfold LoadSegment
      rw [h]
    · intro j h hk1 hk2
      unfold LoadSegment
      rw [h]
      simp [hk1, hk2]
    · intro j h hk hep
      unfold LoadSegment
      rw [h]
      simp only []
      rw [if_pos hk, if_neg (not_lt.mpr hep)]
    · intro j h hk hep
      unfold LoadSegment
      rw [h]
      simp only []
      rw [if_pos hk, if_pos hep]
  · intro seg e hc hmem hseg
    exact LoadTrajectory_error_of_mem hc hmem hseg

/-- C5 witness: a segment naming an unregistered joint fails with the
missing-joint violation, and the example construction succeeds with the
0.001 end position preserved. -/
theorem C5_witness :
    LoadSegment exModel exSegmentSdfBad = .error .SegmentJointMissing ∧
    ContinuousTrackProperties exModel exSdf = .ok exProperties :=
  ⟨((C5_trajectory_checks exModel exTrajectorySdf).1 exSegmentSdfBad).1 (by decide),
   ((C5_trajectory_checks exModel exTrajectorySdf).2.2).1⟩

/-- C6: pattern extraction fails with the non-positive elements-per-round
violation when the count reads 0; on the example pattern subtree with count 5
and two elements, the first with two collisions and no visual, the result has
exactly two elements, the first with two collision subtrees and no visual
subtree, and the count 5 (which differs from the number of elements). -/
theorem C6_pattern_checks (m : Model) (sdf : SdfElement) :
    ((sdf.getElement "elements_per_round").getUInt = 0 →
       LoadPattern m sdf = .error .ElementsPerRoundNonPositive) ∧
    (LoadPattern exModel exPatternSdf = .ok exPattern ∧
     exPattern.elements.length = 2 ∧
     exPatternElement1.collision_sdfs.length = 2 ∧
     exPatternElement1.visual_sdfs.length = 0 ∧
     exPattern.elements = [exPatternElement1, exPatternElement2] ∧
     exPattern.elements_per_round = 5) := by
  refine ⟨?_, exLoadPattern_eq, rfl, rfl, rfl, rfl, rfl⟩
  intro h
  unfold LoadPattern
  rw [h]
  rfl

/-- C6 witness: the general clause at a pattern subtree whose count is 0. -/
theorem C6_witness :
    LoadPattern exModel exPatternSdf0 = .error .ElementsPerRoundNonPositive :=
  (C6_pattern_checks exModel exPatternSdf0).1 (by decide)

/-- C7: on conforming input the segments of a successful trajectory
correspond one to one, in order, to the segment children in document order;
the elements of a successful pattern are the image, in order, of the element
children in document order; and within each element the collision and visual
lists are the document-ordered clone images of the corresponding children. -/
theorem C7_order (m : Model) (sdf : SdfElement) :
    (∀ t, conformsTrajectory sdf = true → LoadTrajectory m sdf = .ok t →
       List.Forall₂ (fun seg s => LoadSegment m seg = .ok s)
         (sdf.getElements "segment") t.segments) ∧
    (∀ p, sdf.hasElement "element" = true → LoadPattern m sdf = .ok p →
       p.elements = (sdf.getElements "element").map LoadPatternElement) ∧
    (∀ e : SdfElement,
       (LoadPatternElement e).collision_sdfs =
         (e.getElements "collision").map SdfElement.clone ∧
       (LoadPatternElement e).visual_sdfs =
         (e.getElements "visual").map SdfElement.clone) := by
  refine ⟨?_, ?_, ?_⟩
  · intro t hc h
    exact LoadTrajectory_ok_forall₂ hc h
  · intro p hhas h
    have := (LoadPattern_fields h).2
    rw [if_pos hhas] at this
    exact this
  · intro e
    rw [LoadPatternElement_eq]
    constructor
    · rw [SdfElement.map_clone]
    · rw [SdfElement.map_clone]

/-- C7 witness: the order laws at the example trajectory and pattern. -/
theorem C7_witness :
    List.Forall₂ (fun seg s => LoadSegment exModel seg = .ok s)
      (exTrajectorySdf.getElements "segment") exTrajectory.segments ∧
    exPattern.elements = (exPatternSdf.getElements "element").map LoadPatternElement := by
  constructor
  · exact (C7_order exModel exTrajectorySdf).1 exTrajectory (by decide) rfl
  · exact (C7_order exModel exPatternSdf).2.1 exPattern (by decide) exLoadPattern_eq

/-- C8: every collision and visual subtree stored by a successful pattern
extraction is the deep-copy image of its source subtree in document order and
is structurally equal to it; and at the pointer level a clone performed with
fresh addresses is structurally equal to its source while mutating the tree
through any address of the clone leaves the source unchanged, and mutating it
through any address of the source leaves the clone unchanged. -/
theorem C8_clone_isolation (m : Model) (sdf : SdfElement) (p : Pattern)
    (hp : LoadPattern m sdf = .ok p) :
    List.Forall₂
      (fun src el =>
         el.collision_sdfs = (src.getElements "collision").map SdfElement.clone ∧
         el.collision_sdfs = src.getElements "collision" ∧
         el.visual_sdfs = (src.getElements "visual").map SdfElement.clone ∧
         el.visual_sdfs = src.getElements "visual")
      (if sdf.hasElement "element" then sdf.getElements "element"
       else [SdfElement.emptyElement "element"])
      p.elements ∧
    (∀ (pe : PElem) (ctr : Nat), (∀ i ∈ PElem.ids pe, i < ctr) →
       (PElem.erase (PElem.cloneAlloc pe ctr).1 = PElem.erase pe ∧
        (∀ t w, t ∈ PElem.ids (PElem.cloneAlloc pe ctr).1 →
           PElem.setValueAt pe t w = pe) ∧
        (∀ t w, t ∈ PElem.ids pe →
           PElem.setValueAt (PElem.cloneAlloc pe ctr).1 t w =
             (PElem.cloneAlloc pe ctr).1))) := by
  constructor
  · rw [(LoadPattern_fields hp).2]
    rw [List.forall₂_map_right_iff]
    rw [List.forall₂_same]
    intro e _
    rw [LoadPatternElement_eq]
    refine ⟨?_, ?_, ?_, ?_⟩
    · rw [SdfElement.map_clone]
    · rfl
    · rw [SdfElement.map_clone]
    · rfl
  · intro pe ctr hfresh
    exact PElem.clone_isolated pe ctr hfresh

/-- C8 witness: applied to the example pattern; at the pointer level, cloning
the example addressed tree at a fresh counter preserves its structure and a
mutation through a clone address is invisible in the source. -/
theorem C8_witness :
    PElem.erase (PElem.cloneAlloc exPElem 2).1 = PElem.erase exPElem ∧
    PElem.setValueAt exPElem 2 SdfValue.noValue = exPElem := by
  obtain ⟨-, hiso⟩ :=
    C8_clone_isolation exModel exPatternSdf exPattern exLoadPattern_eq
  obtain ⟨h1, h2, -⟩ := hiso exPElem 2 (by
    intro i hi
    simp [exPElem, PElem.ids, PElem.idsList] at hi
    omega)
  refine ⟨h1, h2 2 SdfValue.noValue ?_⟩
  simp [exPElem, PElem.cloneAlloc, PElem.cloneAllocList, PElem.ids, PElem.idsList]

/-- C9: on schema-conforming subtrees the three extractors have no side
effect: the state-passing semantics, which records every tree insertion a
GetElement call could make, returns the input tree unchanged alongside the
pure extraction result (the model is consulted only through the read-only
GetJoint and GetType queries and is never modified). -/
theorem C9_no_side_effects (m : Model) (s t p : SdfElement) :
    (conformsSprocket s = true →
       LoadSprocketS m s = (LoadSprocket m s).map (fun x => (x, s))) ∧
    (conformsTrajectory t = true →
       LoadTrajectoryS m t = (LoadTrajectory m t).map (fun x => (x, t))) ∧
    (conformsPattern p = true →
       LoadPatternS m p = (LoadPattern m p).map (fun x => (x, p))) :=
  ⟨LoadSprocketS_frame m s, LoadTrajectoryS_frame m t, LoadPatternS_frame m p⟩

/-- C9 witness: the sprocket frame property at the example subtree. -/
theorem C9_witness :
    LoadSprocketS exModel exSprocketSdf =
      (LoadSprocket exModel exSprocketSdf).map (fun x => (x, exSprocketSdf)) :=
  (C9_no_side_effects exModel exSprocketSdf exTrajectorySdf exPatternSdf).1 (by decide)

/-- C10: pattern extraction never reads its model argument: any two models
yield the same result on the same pattern subtree. -/
theorem C10_pattern_model_independent (m1 m2 : Model) (sdf : SdfElement) :
    LoadPattern m1 sdf = LoadPattern m2 sdf := rfl
